import Mathlib

/-!
A shallow embedding of the SANKEY license decoder
(`src/native/sankey-decode/src/SankeyDecoder.cpp`).

Raw byte buffers (`std::vector<unsigned char>`, C strings) are modelled as
`List Nat` (each entry one byte).  Nullable `const char*` arguments are
`Option (List Nat)` / `Option String`, `none` standing for a null pointer.
The trusted cryptographic primitives (base64 decode, HMAC-SHA-256,
AES-256-CBC decrypt) and the JSON parser are treated as opaque library
calls, modelled as function-valued parameters in a `CryptoEnv` record; a
`none` result models the boolean-failure return of the corresponding
wrapper in the source.  The ISO-8601 date parser and the accessor layer
are translated concretely.
-/

set_option maxRecDepth 20000

namespace Sankey

/-- The `LicenseStatus` enumeration of `SankeyDecoder.h`. -/
inductive LicenseStatus where
  | Valid
  | Expired
  | Invalid
  | Tampered
  | KeyError
  | DecryptionFailed
  | ParseError
deriving DecidableEq, Repr

/-- A model of the `nlohmann::json` value tree.  Integer- and float-stored
numbers are separate constructors, mirroring `is_number_integer` versus
`is_number_float`; float values are represented by rationals (no claim in
scope depends on binary floating-point rounding). -/
inductive Json where
  | null
  | boolV (b : Bool)
  | intV (n : Int)
  | floatV (q : Rat)
  | strV (s : String)
  | arrV (elems : List Json)
  | objV (fields : List (String × Json))

/-- `json::contains`-style lookup: member lookup on an object, nothing on
any other value kind. -/
def Json.find : Json → String → Option Json
  | .objV fields, k => fields.lookup k
  | _, _ => none

/-- `payload_.contains(key)`. -/
def Json.containsKey (j : Json) (k : String) : Bool :=
  (j.find k).isSome

/-- `is_string()`. -/
def Json.isString : Json → Bool
  | .strV _ => true
  | _ => false

/-- `is_boolean()`. -/
def Json.isBoolean : Json → Bool
  | .boolV _ => true
  | _ => false

/-- `is_number()` (integer or float). -/
def Json.isNumber : Json → Bool
  | .intV _ => true
  | .floatV _ => true
  | _ => false

/-- `is_number_integer()`. -/
def Json.isNumberInteger : Json → Bool
  | .intV _ => true
  | _ => false

/-- `nlohmann::json::clear()`: resets the value of each kind to its empty
value, keeping the kind (`null` stays `null`, objects become `{}`, ...). -/
def Json.clearJ : Json → Json
  | .null => .null
  | .boolV _ => .boolV false
  | .intV _ => .intV 0
  | .floatV _ => .floatV 0
  | .strV _ => .strV ""
  | .arrV _ => .arrV []
  | .objV _ => .objV []

/-- Truncation of a 64-bit value to a 32-bit `long` (MSVC `long` is 32 bits;
`static_cast<long>` wraps two's-complement). -/
def wrap32 (n : Int) : Int :=
  (n + 2 ^ 31) % 2 ^ 32 - 2 ^ 31

/-- The fields of the `std::tm` produced by `std::get_time`, kept as the
absolute calendar values (year as e.g. `2025`, month `1..12`). -/
structure TmG where
  year : Nat
  month : Nat
  day : Nat
  hour : Nat
  minute : Nat
  second : Nat
deriving DecidableEq, Repr

/-- Reads at most `cap` leading decimal digits of `cs`, accumulating their
value onto `acc` and their count onto `cnt`; models the maximal-munch
numeric-field scan of `std::get_time`. -/
def getDigitsAux : Nat → Nat → Nat → List Char → Nat × Nat × List Char
  | 0, acc, cnt, cs => (acc, cnt, cs)
  | _ + 1, acc, cnt, [] => (acc, cnt, [])
  | cap + 1, acc, cnt, c :: rest =>
    if c.isDigit then getDigitsAux cap (acc * 10 + (c.toNat - 48)) (cnt + 1) rest
    else (acc, cnt, c :: rest)

/-- One numeric field of the `get_time` format: up to `cap` digits, at least
one, value required to lie in `[lo, hi]`. -/
def readField (cap lo hi : Nat) (cs : List Char) : Option (Nat × List Char) :=
  match getDigitsAux cap 0 0 cs with
  | (v, cnt, rest) =>
    if cnt = 0 then none
    else if v < lo then none
    else if hi < v then none
    else some (v, rest)

/-- One literal character of the `get_time` format. -/
def expectChar (c : Char) (cs : List Char) : Option (List Char) :=
  match cs with
  | [] => none
  | d :: rest => if d = c then some rest else none

/-- `ss >> std::get_time(&tm, "%Y-%m-%dT%H:%M:%S")` on `isoString`: skips
leading whitespace, then reads a (up to 4 digit) year, literal `-`, month
`1..12`, literal `-`, day `1..31`, literal `T`, hour `0..23`, literal `:`,
minute `0..59`, literal `:`, second `0..59`.  Anything left over after the
seconds field is ignored, exactly as the stream parse leaves it unread.
Returns `none` when the stream would enter the failed state. -/
def getTimeParse (s : String) : Option TmG := do
  let cs := s.toList.dropWhile (fun c => c.isWhitespace)
  let (y, cs) ← readField 4 0 9999 cs
  let cs ← expectChar '-' cs
  let (mo, cs) ← readField 2 1 12 cs
  let cs ← expectChar '-' cs
  let (d, cs) ← readField 2 1 31 cs
  let cs ← expectChar 'T' cs
  let (h, cs) ← readField 2 0 23 cs
  let cs ← expectChar ':' cs
  let (mi, cs) ← readField 2 0 59 cs
  let cs ← expectChar ':' cs
  let (sec, _) ← readField 2 0 59 cs
  pure ⟨y, mo, d, h, mi, sec⟩

/-- Gregorian leap-year test. -/
def isLeap (y : Nat) : Bool :=
  (y % 4 = 0 && y % 100 ≠ 0) || y % 400 = 0

/-- Days in the months strictly before month `mo` (1-based) of a year. -/
def daysInMonthsBefore (leap : Bool) (mo : Nat) : Nat :=
  let lens : List Nat := [31, if leap then 29 else 28, 31, 30, 31, 30, 31, 31, 30, 31, 30, 31]
  (lens.take (mo - 1)).sum

/-- Days from 1970-01-01 to the given civil date (year ≥ 1970); an
out-of-range day-of-month simply rolls over into the following month, as
`_mkgmtime`'s normalisation does. -/
def daysSinceEpoch (y mo d : Nat) : Nat :=
  (List.range (y - 1970)).foldl (fun acc i => acc + (if isLeap (1970 + i) then 366 else 365)) 0
    + daysInMonthsBefore (isLeap y) mo + (d - 1)

/-- Epoch seconds of the latest time `_mkgmtime` supports
(3000-12-31T23:59:59 UTC). -/
def maxMkgmtime : Nat :=
  daysSinceEpoch 3000 12 31 * 86400 + 86399

/-- `_mkgmtime(&tm)`: interprets the `tm` fields as UTC and returns epoch
seconds, or `-1` when the time is outside the supported range
(1970-01-01T00:00:00 .. 3000-12-31T23:59:59 UTC). -/
def mkgmtimeM (t : TmG) : Int :=
  if t.year < 1970 then -1
  else
    let total : Nat :=
      daysSinceEpoch t.year t.month t.day * 86400
        + t.hour * 3600 + t.minute * 60 + t.second
    if maxMkgmtime < total then -1 else (total : Int)

/-- `CSankeyLicenseDecoder::parseISODateTime`: `get_time` parse followed by
`_mkgmtime`, `0` on stream failure; the `time_t` result is truncated by
`static_cast<long>` (32-bit `long`). -/
def parseISODateTime (s : String) : Int :=
  match getTimeParse s with
  | none => 0
  | some tm => wrap32 (mkgmtimeM tm)

/-- The mutable members of `CSankeyLicenseDecoder` touched by `verify` and
the accessors. -/
structure SankeyState where
  isVerified_ : Bool
  payload_ : Json

/-- The state set up by the constructor: `isVerified_(false)` and a
default-constructed (null) `payload_`. -/
def initState : SankeyState :=
  { isVerified_ := false, payload_ := Json.null }

/-- Observable operations of one `verify` call, recorded in order:
the HMAC-SHA-256 invocation (with its key and message), the success of the
`memcmp` tag comparison, the AES-CBC decryption attempt, the JSON parse
attempt, and the evaluation of the `expiry` field. -/
inductive VEvent where
  | hmacCall (key msg : List Nat)
  | macPass
  | aesCall (key iv cipher : List Nat)
  | jsonParseEv (plain : List Nat)
  | expiryEval (s : String)

/-- The shape of a `VEvent`, forgetting its arguments. -/
inductive VTag where
  | hmacT
  | macPassT
  | aesT
  | parseT
  | expiryT
deriving DecidableEq, Repr

/-- Tag of an event. -/
def VEvent.vtag : VEvent → VTag
  | .hmacCall _ _ => .hmacT
  | .macPass => .macPassT
  | .aesCall _ _ _ => .aesT
  | .jsonParseEv _ => .parseT
  | .expiryEval _ => .expiryT

/-- The trusted library calls `verify` makes, modelled as opaque
functions.  `b64decode` models `CryptStringToBinaryA` (`none` = failure),
`hmacSha256` and `aesCbcDecrypt` model the CryptoAPI wrappers (`none` =
provider failure, i.e. the wrapper returning `false`), `jsonParse` models
`nlohmann::json::parse` (`none` = a thrown `json::exception`), and `now`
models `time(nullptr)`. -/
structure CryptoEnv where
  b64decode : List Nat → Option (List Nat)
  hmacSha256 : List Nat → List Nat → Option (List Nat)
  aesCbcDecrypt : List Nat → List Nat → List Nat → Option (List Nat)
  jsonParse : List Nat → Option Json
  now : Int

/-- `CSankeyLicenseDecoder::verify(masterKeyB64, licenseB64, accountId)`,
line by line, instrumented with the trace of observable operations.
`prev` is the state of the instance before the call; the three arguments
are the byte strings the pointers refer to, `none` for a null pointer.
Returns the status, the state of the instance after the call, and the
event trace. -/
def verifyT (env : CryptoEnv) (prev : SankeyState)
    (masterKeyB64 licenseB64 accountId : Option (List Nat)) :
    LicenseStatus × SankeyState × List VEvent :=
  let st0 : SankeyState := { isVerified_ := false, payload_ := prev.payload_.clearJ }
  match masterKeyB64, licenseB64, accountId with
  | some mk, some lic, some acct =>
    (match env.b64decode mk with
     | none => (.KeyError, st0, [])
     | some masterKey =>
       if masterKey.length ≠ 32 then (.KeyError, st0, [])
       else
         match env.b64decode lic with
         | none => (.Invalid, st0, [])
         | some licenseBin =>
           if licenseBin.length < 48 then (.Invalid, st0, [])
           else
             let iv := licenseBin.take 16
             let hmacStored := (licenseBin.drop 16).take 32
             let cipher := licenseBin.drop 48
             let hmacInput := iv ++ cipher ++ acct
             match env.hmacSha256 masterKey hmacInput with
             | none => (.DecryptionFailed, st0, [.hmacCall masterKey hmacInput])
             | some mac =>
               if mac.take 32 ≠ hmacStored then
                 (.Tampered, st0, [.hmacCall masterKey hmacInput])
               else
                 let evs2 := [VEvent.hmacCall masterKey hmacInput, VEvent.macPass]
                 match env.aesCbcDecrypt masterKey iv cipher with
                 | none => (.DecryptionFailed, st0, evs2 ++ [.aesCall masterKey iv cipher])
                 | some plain =>
                   let evs3 := evs2 ++ [VEvent.aesCall masterKey iv cipher]
                   match env.jsonParse plain with
                   | none => (.ParseError, st0, evs3 ++ [.jsonParseEv plain])
                   | some payload =>
                     let evs4 := evs3 ++ [VEvent.jsonParseEv plain]
                     let st1 : SankeyState := { isVerified_ := false, payload_ := payload }
                     match payload.find "expiry" with
                     | some (.strV expiryStr) =>
                       let expiryTimestamp := parseISODateTime expiryStr
                       let evs5 := evs4 ++ [VEvent.expiryEval expiryStr]
                       if 0 < expiryTimestamp then
                         if expiryTimestamp < env.now then (.Expired, st1, evs5)
                         else (.Valid, { st1 with isVerified_ := true }, evs5)
                       else (.Valid, { st1 with isVerified_ := true }, evs5)
                     | _ => (.Valid, { st1 with isVerified_ := true }, evs4))
  | _, _, _ => (.Invalid, st0, [])

/-- The status returned by `verify`. -/
def verify (env : CryptoEnv) (prev : SankeyState)
    (masterKeyB64 licenseB64 accountId : Option (List Nat)) : LicenseStatus :=
  (verifyT env prev masterKeyB64 licenseB64 accountId).1

/-- The instance state after `verify`. -/
def verifySt (env : CryptoEnv) (prev : SankeyState)
    (masterKeyB64 licenseB64 accountId : Option (List Nat)) : SankeyState :=
  (verifyT env prev masterKeyB64 licenseB64 accountId).2.1

/-- The event trace of `verify`. -/
def verifyEvents (env : CryptoEnv) (prev : SankeyState)
    (masterKeyB64 licenseB64 accountId : Option (List Nat)) : List VEvent :=
  (verifyT env prev masterKeyB64 licenseB64 accountId).2.2

/-- `std::stoi` on a `std::string`, base 10: optional leading whitespace,
optional sign, maximal run of digits; `none` models a thrown
`invalid_argument` (no digits) or `out_of_range` (value outside 32-bit
`int`). -/
def stoiM (s : String) : Option Int :=
  let cs := s.toList.dropWhile (fun c => c.isWhitespace)
  let signed :=
    match cs with
    | '-' :: rest => (true, rest)
    | '+' :: rest => (false, rest)
    | _ => (false, cs)
  let digits := signed.2.takeWhile (fun c => c.isDigit)
  if digits.isEmpty then none
  else
    let v : Nat := digits.foldl (fun acc c => acc * 10 + (c.toNat - 48)) 0
    let r : Int := if signed.1 then -(v : Int) else (v : Int)
    if r < -(2 ^ 31) then none
    else if 2 ^ 31 - 1 < r then none
    else some r

/-- `CSankeyLicenseDecoder::getValue`. -/
def getValue (st : SankeyState) (key : Option String) (defaultValue : Option String) : String :=
  match key with
  | none => defaultValue.getD ""
  | some k =>
    if st.isVerified_ then
      match st.payload_.find k with
      | some (.strV s) => s
      | _ => defaultValue.getD ""
    else defaultValue.getD ""

/-- `CSankeyLicenseDecoder::getValueAsInt`.  The `json`→`int` conversion on
the integer branch is `static_cast<int>` of the stored 64-bit value, hence
`wrap32`; a `std::stoi` failure on the string branch is caught and falls
through to the default. -/
def getValueAsInt (st : SankeyState) (key : Option String) (defaultValue : Int) : Int :=
  match key with
  | none => defaultValue
  | some k =>
    if st.isVerified_ then
      match st.payload_.find k with
      | some (.intV n) => wrap32 n
      | some (.strV s) => (stoiM s).getD defaultValue
      | _ => defaultValue
    else defaultValue

/-- `CSankeyLicenseDecoder::getValueAsBool`. -/
def getValueAsBool (st : SankeyState) (key : Option String) (defaultValue : Bool) : Bool :=
  match key with
  | none => defaultValue
  | some k =>
    if st.isVerified_ then
      match st.payload_.find k with
      | some (.boolV b) => b
      | some (.strV s) => s = "true" || s = "1" || s = "yes"
      | some (.intV n) => n ≠ 0
      | some (.floatV q) => q ≠ 0
      | _ => defaultValue
    else defaultValue

/-- `CSankeyLicenseDecoder::getValueAsDouble`.  `std::stod` is a trusted
library call, passed in as `stod` (`none` models a thrown exception);
doubles are modelled by rationals. -/
def getValueAsDouble (stod : String → Option Rat) (st : SankeyState)
    (key : Option String) (defaultValue : Rat) : Rat :=
  match key with
  | none => defaultValue
  | some k =>
    if st.isVerified_ then
      match st.payload_.find k with
      | some (.intV n) => (n : Rat)
      | some (.floatV q) => q
      | some (.strV s) => (stod s).getD defaultValue
      | _ => defaultValue
    else defaultValue

/-- `CSankeyLicenseDecoder::getValueAsDateTime`. -/
def getValueAsDateTime (st : SankeyState) (key : Option String) (defaultValue : Int) : Int :=
  match key with
  | none => defaultValue
  | some k =>
    if st.isVerified_ then
      match st.payload_.find k with
      | some (.strV s) =>
        let timestamp := parseISODateTime s
        if 0 < timestamp then timestamp else defaultValue
      | _ => defaultValue
    else defaultValue

/-- `CSankeyLicenseDecoder::hasKey`. -/
def hasKey (st : SankeyState) (key : Option String) : Bool :=
  match key with
  | none => false
  | some k => st.isVerified_ && st.payload_.containsKey k

/-- A concrete instantiation of the trusted primitives used to evaluate the
model on closed inputs: the byte string `[65]` decodes to a 32-byte key,
`[66]` to a 48-byte envelope of zeros whose stored tag equals the HMAC the
oracle computes, decryption yields bytes that parse to an object with one
`accountId` field and no `expiry`. -/
def envW : CryptoEnv :=
  { b64decode := fun bs =>
      if bs = [65] then some (List.replicate 32 0)
      else if bs = [66] then some (List.replicate 48 0)
      else none
    hmacSha256 := fun _ _ => some (List.replicate 32 0)
    aesCbcDecrypt := fun _ _ _ => some [123, 125]
    jsonParse := fun _ => some (Json.objV [("accountId", Json.strV "1234")])
    now := 1700000000 }

/-- `envW` with an HMAC oracle whose tag (all bytes `1`) never matches the
all-zero stored tag of the `[66]`-envelope. -/
def envM : CryptoEnv :=
  { envW with hmacSha256 := fun _ _ => some (List.replicate 32 1) }

/-- `envW` with a payload carrying a past (but positive) `expiry`. -/
def envPast : CryptoEnv :=
  { envW with jsonParse := fun _ => some (Json.objV [("expiry", Json.strV "2020-01-01T00:00:00Z")]) }

/-- `envW` with a payload whose `expiry` is exactly the epoch origin. -/
def envEpoch : CryptoEnv :=
  { envW with jsonParse := fun _ => some (Json.objV [("expiry", Json.strV "1970-01-01T00:00:00Z")]) }

/-- The character of a decimal digit value. -/
def digitChar (k : Nat) : Char :=
  Char.ofNat (48 + k)

/-- Two-digit zero-padded decimal rendering (for `n ≤ 99`). -/
def pad2 (n : Nat) : List Char :=
  [digitChar (n / 10), digitChar (n % 10)]

/-- Four-digit zero-padded decimal rendering (for `n ≤ 9999`). -/
def pad4 (n : Nat) : List Char :=
  [digitChar (n / 1000), digitChar (n / 100 % 10), digitChar (n / 10 % 10), digitChar (n % 10)]

/-- The canonical `YYYY-MM-DDTHH:MM:SS` rendering of the six fields. -/
def isoRender (y mo d h mi s : Nat) : String :=
  ⟨pad4 y ++ '-' :: pad2 mo ++ '-' :: pad2 d ++ 'T' :: pad2 h ++ ':' :: pad2 mi ++ ':' :: pad2 s⟩

/-- C1.  The verified gate is safe: the constructor starts unverified; any
`verify` call that does not return `Valid` leaves the flag `false`; the flag
is `true` after a call only if that call returned `Valid`; every
non-`Valid` status other than `Expired` leaves the instance exactly in the
reset state produced at the start of the call (flag `false`, payload
cleared); and on any instance whose flag is `false` each accessor returns
the caller-supplied default (`getValue` substituting `""` for a null
default pointer, as the source does) and `hasKey` returns `false`. -/
theorem C1_verified_gate :
    initState.isVerified_ = false
    ∧ (∀ env prev mk lic acct,
        (verifyT env prev mk lic acct).1 ≠ LicenseStatus.Valid →
        ((verifyT env prev mk lic acct).2.1).isVerified_ = false)
    ∧ (∀ env prev mk lic acct,
        ((verifyT env prev mk lic acct).2.1).isVerified_ = true →
        (verifyT env prev mk lic acct).1 = LicenseStatus.Valid)
    ∧ (∀ env prev mk lic acct,
        ((verifyT env prev mk lic acct).1 = LicenseStatus.KeyError ∨
         (verifyT env prev mk lic acct).1 = LicenseStatus.Invalid ∨
         (verifyT env prev mk lic acct).1 = LicenseStatus.Tampered ∨
         (verifyT env prev mk lic acct).1 = LicenseStatus.DecryptionFailed ∨
         (verifyT env prev mk lic acct).1 = LicenseStatus.ParseError) →
        (verifyT env prev mk lic acct).2.1 =
          { isVerified_ := false, payload_ := prev.payload_.clearJ })
    ∧ (∀ st k d, st.isVerified_ = false → getValue st k d = d.getD "")
    ∧ (∀ st k d, st.isVerified_ = false → getValueAsInt st k d = d)
    ∧ (∀ st k d, st.isVerified_ = false → getValueAsBool st k d = d)
    ∧ (∀ stod st k d, st.isVerified_ = false → getValueAsDouble stod st k d = d)
    ∧ (∀ st k d, st.isVerified_ = false → getValueAsDateTime st k d = d)
    ∧ (∀ st k, st.isVerified_ = false → hasKey st k = false) := by
  refine ⟨rfl, ?_, ?_, ?_, ?_, ?_, ?_, ?_, ?_, ?_⟩
  · intro env prev mk lic acct h
    revert h
    unfold verifyT
    rcases mk with _ | mk <;> rcases lic with _ | lic <;> rcases acct with _ | acct <;>
      dsimp only <;> (repeat' split) <;> simp
  · intro env prev mk lic acct h
    revert h
    unfold verifyT
    rcases mk with _ | mk <;> rcases lic with _ | lic <;> rcases acct with _ | acct <;>
      dsimp only <;> (repeat' split) <;> simp
  · intro env prev mk lic acct h
    revert h
    unfold verifyT
    rcases mk with _ | mk <;> rcases lic with _ | lic <;> rcases acct with _ | acct <;>
      dsimp only <;> (repeat' split) <;> simp
  · intro st k d h
    unfold getValue
    rcases k with _ | k <;> simp [h]
  · intro st k d h
    unfold getValueAsInt
    rcases k with _ | k <;> simp [h]
  · intro st k d h
    unfold getValueAsBool
    rcases k with _ | k <;> simp [h]
  · intro stod st k d h
    unfold getValueAsDouble
    rcases k with _ | k <;> simp [h]
  · intro st k d h
    unfold getValueAsDateTime
    rcases k with _ | k <;> simp [h]
  · intro st k h
    unfold hasKey
    rcases k with _ | k <;> simp [h]

/-- Closed instance of `C1_verified_gate`: a `verify` call with a null
account id returns `Invalid`, leaves the flag unset and the state reset,
and the accessors on the freshly constructed state return the defaults. -/
theorem C1_verified_gate_witness :
    ((verifyT envW initState (some [65]) (some [66]) none).2.1).isVerified_ = false
    ∧ (verifyT envW initState (some [65]) (some [66]) none).2.1 =
        { isVerified_ := false, payload_ := Json.null }
    ∧ getValue initState (some "k") (some "d") = "d"
    ∧ getValueAsInt initState (some "k") 7 = 7
    ∧ getValueAsBool initState (some "k") true = true
    ∧ getValueAsDouble (fun _ => none) initState (some "k") 3 = 3
    ∧ getValueAsDateTime initState (some "k") 5 = 5
    ∧ hasKey initState (some "k") = false :=
  ⟨C1_verified_gate.2.1 envW initState (some [65]) (some [66]) none (by decide),
   C1_verified_gate.2.2.2.1 envW initState (some [65]) (some [66]) none (by decide),
   C1_verified_gate.2.2.2.2.1 initState (some "k") (some "d") rfl,
   C1_verified_gate.2.2.2.2.2.1 initState (some "k") 7 rfl,
   C1_verified_gate.2.2.2.2.2.2.1 initState (some "k") true rfl,
   C1_verified_gate.2.2.2.2.2.2.2.1 (fun _ => none) initState (some "k") 3 rfl,
   C1_verified_gate.2.2.2.2.2.2.2.2.1 initState (some "k") 5 rfl,
   C1_verified_gate.2.2.2.2.2.2.2.2.2 initState (some "k") rfl⟩

/-- C2.  Account-id binding: whenever the inputs decode (32-byte key,
≥ 48-byte envelope) and the tag recomputed by HMAC-SHA-256 over
`IV ‖ ciphertext ‖ accountId` differs from the stored tag — in particular
because the account id bytes differ from the ones the stored tag was
computed over, or because a correct-length but wrong master key was
supplied — `verify` returns `Tampered`, not `Valid` and not
`DecryptionFailed`. -/
theorem C2_account_binding (env : CryptoEnv) (prev : SankeyState)
    (mk lic acct key bin mac : List Nat)
    (hk : env.b64decode mk = some key) (hklen : key.length = 32)
    (hl : env.b64decode lic = some bin) (hlen : 48 ≤ bin.length)
    (hm : env.hmacSha256 key (bin.take 16 ++ bin.drop 48 ++ acct) = some mac)
    (hne : mac.take 32 ≠ (bin.drop 16).take 32) :
    verify env prev (some mk) (some lic) (some acct) = LicenseStatus.Tampered := by
  have hnl : ¬ bin.length < 48 := by omega
  unfold verify verifyT
  simp only [hk, hklen, hl, hnl]
  simp only [hm]
  simp [hne]

/-- Closed instance of `C2_account_binding`: under `envM` the recomputed
tag (all `1`s) differs from the stored all-zero tag, and `verify` returns
`Tampered`. -/
theorem C2_account_binding_witness :
    verify envM initState (some [65]) (some [66]) (some [57, 57, 57, 57]) =
      LicenseStatus.Tampered :=
  C2_account_binding envM initState [65] [66] [57, 57, 57, 57]
    (List.replicate 32 0) (List.replicate 48 0) (List.replicate 32 1)
    (by decide) (by decide) (by decide) (by decide) (by decide) (by decide)

/-- C3.  Order invariant: the trace of every `verify` call is a prefix of
HMAC computation, then tag-comparison success, then AES decryption, then
JSON parsing, then expiry evaluation — so decryption is only ever attempted
after the tag comparison passed (`macPass` is emitted exactly when the
32-byte `memcmp` succeeds), and the plaintext is only parsed, and the
expiry only evaluated, after decryption completed. -/
theorem C3_order_invariant (env : CryptoEnv) (prev : SankeyState)
    (mk lic acct : Option (List Nat)) :
    (verifyT env prev mk lic acct).2.2.map VEvent.vtag <+:
      [VTag.hmacT, VTag.macPassT, VTag.aesT, VTag.parseT, VTag.expiryT] := by
  unfold verifyT
  rcases mk with _ | mk <;> rcases lic with _ | lic <;> rcases acct with _ | acct <;>
    dsimp only <;> (repeat' split) <;> simp [VEvent.vtag]

/-- C5.  Decode-failure classification: a master key that fails base64
decoding, or decodes to a length other than 32, yields `KeyError`; with a
good key, a license that fails base64 decoding, or decodes to fewer than
48 bytes, yields `Invalid`; in each of these cases the event trace is
empty — no HMAC and no AES operation is attempted — so in particular the
status is never `Tampered` or `DecryptionFailed`. -/
theorem C5_decode_failures (env : CryptoEnv) (prev : SankeyState)
    (mk lic acct : List Nat) :
    (env.b64decode mk = none →
      verifyT env prev (some mk) (some lic) (some acct) =
        (LicenseStatus.KeyError, { isVerified_ := false, payload_ := prev.payload_.clearJ }, []))
    ∧ (∀ key, env.b64decode mk = some key → key.length ≠ 32 →
      verifyT env prev (some mk) (some lic) (some acct) =
        (LicenseStatus.KeyError, { isVerified_ := false, payload_ := prev.payload_.clearJ }, []))
    ∧ (∀ key, env.b64decode mk = some key → key.length = 32 → env.b64decode lic = none →
      verifyT env prev (some mk) (some lic) (some acct) =
        (LicenseStatus.Invalid, { isVerified_ := false, payload_ := prev.payload_.clearJ }, []))
    ∧ (∀ key bin, env.b64decode mk = some key → key.length = 32 →
        env.b64decode lic = some bin → bin.length < 48 →
      verifyT env prev (some mk) (some lic) (some acct) =
        (LicenseStatus.Invalid, { isVerified_ := false, payload_ := prev.payload_.clearJ }, [])) := by
  refine ⟨?_, ?_, ?_, ?_⟩
  · intro h
    unfold verifyT
    simp [h]
  · intro key hk hlen
    unfold verifyT
    simp [hk, hlen]
  · intro key hk hlen hl
    unfold verifyT
    simp [hk, hlen, hl]
  · intro key bin hk hlen hl hbin
    unfold verifyT
    simp [hk, hlen, hl, hbin]

/-- Closed instance of `C5_decode_failures` under `envW`: a key string the
decoder rejects yields `KeyError` with an empty trace, and a license string
the decoder rejects yields `Invalid` with an empty trace. -/
theorem C5_decode_failures_witness :
    verifyT envW initState (some [70]) (some [66]) (some [49]) =
      (LicenseStatus.KeyError, { isVerified_ := false, payload_ := Json.null }, [])
    ∧ verifyT envW initState (some [65]) (some [70]) (some [49]) =
      (LicenseStatus.Invalid, { isVerified_ := false, payload_ := Json.null }, []) :=
  ⟨(C5_decode_failures envW initState [70] [66] [49]).1 (by decide),
   (C5_decode_failures envW initState [65] [70] [49]).2.2.1
     (List.replicate 32 0) (by decide) (by decide) (by decide)⟩

/-- C4.  Expiry evaluation on a call that reaches the expiry step (inputs
present and decoded, tag comparison passed, decryption and JSON parse
succeeded): a string `expiry` field whose parse result is a positive epoch
strictly less than the current time yields `Expired`; an absent `expiry`
field, a non-string `expiry` value, or an `expiry` string on which the
parser returns its failure signal `0` enforces no constraint — `verify`
returns `Valid` whatever `env.now` is. -/
theorem C4_expiry_eval (env : CryptoEnv) (prev : SankeyState)
    (mk lic acct key bin mac plain : List Nat) (payload : Json)
    (hk : env.b64decode mk = some key) (hklen : key.length = 32)
    (hl : env.b64decode lic = some bin) (hlen : 48 ≤ bin.length)
    (hm : env.hmacSha256 key (bin.take 16 ++ bin.drop 48 ++ acct) = some mac)
    (heq : mac.take 32 = (bin.drop 16).take 32)
    (ha : env.aesCbcDecrypt key (bin.take 16) (bin.drop 48) = some plain)
    (hp : env.jsonParse plain = some payload) :
    (∀ s, payload.find "expiry" = some (Json.strV s) →
        0 < parseISODateTime s → parseISODateTime s < env.now →
        verify env prev (some mk) (some lic) (some acct) = LicenseStatus.Expired)
    ∧ (payload.find "expiry" = none →
        verify env prev (some mk) (some lic) (some acct) = LicenseStatus.Valid)
    ∧ (∀ v, payload.find "expiry" = some v → v.isString = false →
        verify env prev (some mk) (some lic) (some acct) = LicenseStatus.Valid)
    ∧ (∀ s, payload.find "expiry" = some (Json.strV s) → parseISODateTime s = 0 →
        verify env prev (some mk) (some lic) (some acct) = LicenseStatus.Valid) := by
  have hnl : ¬ bin.length < 48 := by omega
  refine ⟨?_, ?_, ?_, ?_⟩
  · intro s hs h0 hnow
    unfold verify verifyT
    simp only [hk, hklen, hl, hnl]
    simp only [hm]
    simp only [heq]
    simp [ha, hp, hs, h0, hnow]
  · intro hs
    unfold verify verifyT
    simp only [hk, hklen, hl, hnl]
    simp only [hm]
    simp only [heq]
    simp [ha, hp, hs]
  · intro v hs hvs
    unfold verify verifyT
    simp only [hk, hklen, hl, hnl]
    simp only [hm]
    simp only [heq]
    rcases v with _ | b | n | q | s | elems | fields <;> simp_all [Json.isString]
  · intro s hs h0
    unfold verify verifyT
    simp only [hk, hklen, hl, hnl]
    simp only [hm]
    simp only [heq]
    simp [ha, hp, hs, h0]

/-- Closed instance of `C4_expiry_eval`: a payload whose `expiry` is
2020-01-01T00:00:00Z (epoch 1577836800, before `now` = 1700000000) makes
`verify` return `Expired`, and a payload with no `expiry` field makes it
return `Valid`. -/
theorem C4_expiry_eval_witness :
    verify envPast initState (some [65]) (some [66]) (some [49]) = LicenseStatus.Expired
    ∧ verify envW initState (some [65]) (some [66]) (some [49]) = LicenseStatus.Valid :=
  ⟨(C4_expiry_eval envPast initState [65] [66] [49]
      (List.replicate 32 0) (List.replicate 48 0) (List.replicate 32 0) [123, 125]
      (Json.objV [("expiry", Json.strV "2020-01-01T00:00:00Z")])
      (by decide) (by decide) (by decide) (by decide) (by decide) (by decide)
      (by decide) rfl).1
    "2020-01-01T00:00:00Z" rfl (by decide) (by decide),
   (C4_expiry_eval envW initState [65] [66] [49]
      (List.replicate 32 0) (List.replicate 48 0) (List.replicate 32 0) [123, 125]
      (Json.objV [("accountId", Json.strV "1234")])
      (by decide) (by decide) (by decide) (by decide) (by decide) (by decide)
      (by decide) rfl).2.1 rfl⟩

/-- C6 (amended).  `verify` rejects with `Invalid` — before touching any
decode or crypto operation, with the state reset and an empty trace —
exactly when one of the three input pointers is null; an empty (non-null)
input is not caught by this check. -/
theorem C6_null_inputs (env : CryptoEnv) (prev : SankeyState)
    (mk lic acct : Option (List Nat))
    (h : mk = none ∨ lic = none ∨ acct = none) :
    verifyT env prev mk lic acct =
      (LicenseStatus.Invalid, { isVerified_ := false, payload_ := prev.payload_.clearJ }, []) := by
  unfold verifyT
  rcases mk with _ | mk <;> rcases lic with _ | lic <;> rcases acct with _ | acct <;>
    simp_all

/-- Counterexample to C6 as stated: the account id `""` (a present but
empty input, modelled as `some []`) is not rejected — under `envW` the
call runs the full pipeline and returns `Valid`, not `Invalid`. -/
theorem C6_counterexample :
    verify envW initState (some [65]) (some [66]) (some []) = LicenseStatus.Valid
    ∧ LicenseStatus.Valid ≠ LicenseStatus.Invalid
    ∧ (verifyEvents envW initState (some [65]) (some [66]) (some [])) ≠ [] := by
  refine ⟨by decide, by decide, ?_⟩
  intro h
  have := congrArg List.length h
  revert this
  decide

/-- Closed instance of `C6_null_inputs`: a null license pointer yields
`Invalid` with the reset state and an empty trace. -/
theorem C6_null_inputs_witness :
    verifyT envW initState (some [65]) none (some [49]) =
      (LicenseStatus.Invalid, { isVerified_ := false, payload_ := Json.null }, []) :=
  C6_null_inputs envW initState (some [65]) none (some [49]) (Or.inr (Or.inl rfl))

/-- C7.  Envelope layout and integrity input: once the key (32 bytes) and
the license blob (≥ 48 bytes) are decoded, the first recorded operation is
the HMAC-SHA-256 call whose key is the master key and whose message is
exactly `bin[0,16) ‖ bin[48,end) ‖ accountId` (no delimiters or length
prefixes); the comparison that decides `Tampered` is against the stored
tag `bin[16,48)`; and when it passes, decryption is invoked with
`iv = bin[0,16)` and `ciphertext = bin[48,end)`. -/
theorem C7_envelope_layout (env : CryptoEnv) (prev : SankeyState)
    (mk lic acct key bin : List Nat)
    (hk : env.b64decode mk = some key) (hklen : key.length = 32)
    (hl : env.b64decode lic = some bin) (hlen : 48 ≤ bin.length) :
    (verifyEvents env prev (some mk) (some lic) (some acct)).head? =
      some (VEvent.hmacCall key (bin.take 16 ++ bin.drop 48 ++ acct))
    ∧ (∀ mac, env.hmacSha256 key (bin.take 16 ++ bin.drop 48 ++ acct) = some mac →
        (verify env prev (some mk) (some lic) (some acct) = LicenseStatus.Tampered ↔
          mac.take 32 ≠ (bin.drop 16).take 32))
    ∧ (∀ mac, env.hmacSha256 key (bin.take 16 ++ bin.drop 48 ++ acct) = some mac →
        mac.take 32 = (bin.drop 16).take 32 →
        (verifyEvents env prev (some mk) (some lic) (some acct)).take 3 =
          [VEvent.hmacCall key (bin.take 16 ++ bin.drop 48 ++ acct), VEvent.macPass,
            VEvent.aesCall key (bin.take 16) (bin.drop 48)]) := by
  have hnl : ¬ bin.length < 48 := by omega
  refine ⟨?_, ?_, ?_⟩
  · unfold verifyEvents verifyT
    simp only [hk, hklen, hl, hnl]
    (repeat' split) <;> simp_all
  · intro mac hm
    unfold verify verifyT
    simp only [hk, hklen, hl, hnl]
    simp only [hm]
    constructor
    · intro hcon hq
      revert hcon
      (repeat' split) <;> simp_all
    · intro hne
      (repeat' split) <;> simp_all
  · intro mac hm hq
    unfold verifyEvents verifyT
    simp only [hk, hklen, hl, hnl]
    simp only [hm]
    (repeat' split) <;> simp_all

/-- Closed instance of `C7_envelope_layout` under `envW`: the trace of a
successful call starts with the HMAC call on `IV ‖ ciphertext ‖ accountId`
followed by the comparison success and the AES call, and the matching tag
means the status is not `Tampered`. -/
theorem C7_envelope_layout_witness :
    (verifyEvents envW initState (some [65]) (some [66]) (some [49])).head? =
      some (VEvent.hmacCall (List.replicate 32 0)
        ((List.replicate 48 0).take 16 ++ (List.replicate 48 0).drop 48 ++ [49]))
    ∧ verify envW initState (some [65]) (some [66]) (some [49]) ≠ LicenseStatus.Tampered
    ∧ (verifyEvents envW initState (some [65]) (some [66]) (some [49])).take 3 =
        [VEvent.hmacCall (List.replicate 32 0)
          ((List.replicate 48 0).take 16 ++ (List.replicate 48 0).drop 48 ++ [49]),
         VEvent.macPass,
         VEvent.aesCall (List.replicate 32 0)
           ((List.replicate 48 0).take 16) ((List.replicate 48 0).drop 48)] := by
  have hthm := C7_envelope_layout envW initState [65] [66] [49]
      (List.replicate 32 0) (List.replicate 48 0)
      (by decide) (by decide) (by decide) (by decide)
  refine ⟨hthm.1, ?_, hthm.2.2 (List.replicate 32 0) (by decide) (by decide)⟩
  intro hcon
  exact ((hthm.2.1 (List.replicate 32 0) (by decide)).mp hcon) (by decide)

/-- C9.  Boolean coercion: on a verified instance with the key present,
`getValueAsBool` returns a JSON boolean as-is; maps a string to `true`
exactly when it is the case-sensitive exact match `"true"`, `"1"` or
`"yes"` and to `false` for every other string (never to the default);
maps either kind of number to `value ≠ 0`; and returns the caller-supplied
default for every other value type (null, array, object). -/
theorem C9_bool_coercion (st : SankeyState) (k : String) (v : Json) (dflt : Bool)
    (hver : st.isVerified_ = true) (hf : st.payload_.find k = some v) :
    getValueAsBool st (some k) dflt =
      match v with
      | .boolV b => b
      | .strV s => decide (s = "true") || decide (s = "1") || decide (s = "yes")
      | .intV n => decide (n ≠ 0)
      | .floatV q => decide (q ≠ 0)
      | .null => dflt
      | .arrV _ => dflt
      | .objV _ => dflt := by
  rcases v with _ | b | n | q | s | elems | fields <;>
    simp [getValueAsBool, hver, hf]

/-- Closed instance of `C9_bool_coercion`: on a verified payload, the
string `"yes"` coerces to `true`, the string `"no"` coerces to `false`
(although the supplied default is `true`), the number `0` coerces to
`false`, and a null value falls back to the default. -/
theorem C9_bool_coercion_witness :
    getValueAsBool { isVerified_ := true, payload_ := Json.objV [("a", Json.strV "yes")] }
      (some "a") false = true
    ∧ getValueAsBool { isVerified_ := true, payload_ := Json.objV [("a", Json.strV "no")] }
      (some "a") true = false
    ∧ getValueAsBool { isVerified_ := true, payload_ := Json.objV [("a", Json.intV 0)] }
      (some "a") true = false
    ∧ getValueAsBool { isVerified_ := true, payload_ := Json.objV [("a", Json.null)] }
      (some "a") true = true :=
  ⟨C9_bool_coercion { isVerified_ := true, payload_ := Json.objV [("a", Json.strV "yes")] }
      "a" (Json.strV "yes") false rfl rfl,
   C9_bool_coercion { isVerified_ := true, payload_ := Json.objV [("a", Json.strV "no")] }
      "a" (Json.strV "no") true rfl rfl,
   C9_bool_coercion { isVerified_ := true, payload_ := Json.objV [("a", Json.intV 0)] }
      "a" (Json.intV 0) true rfl rfl,
   C9_bool_coercion { isVerified_ := true, payload_ := Json.objV [("a", Json.null)] }
      "a" Json.null true rfl rfl⟩

/-- C10.  Non-positive parsed epochs are not enforced: on a call that
reaches the expiry step, an `expiry` string whose parse result is ≤ 0
(`0` for 1970-01-01T00:00:00Z or any unparsable string, `-1` for any
pre-1970 date) imposes no constraint and `verify` returns `Valid`, never
`Expired`, regardless of the current time; and `getValueAsDateTime`
returns the caller-supplied default, not the parsed value, whenever the
parsed epoch is not strictly positive. -/
theorem C10_nonpositive_epoch :
    (∀ (env : CryptoEnv) (prev : SankeyState)
       (mk lic acct key bin mac plain : List Nat) (payload : Json) (s : String),
       env.b64decode mk = some key → key.length = 32 →
       env.b64decode lic = some bin → 48 ≤ bin.length →
       env.hmacSha256 key (bin.take 16 ++ bin.drop 48 ++ acct) = some mac →
       mac.take 32 = (bin.drop 16).take 32 →
       env.aesCbcDecrypt key (bin.take 16) (bin.drop 48) = some plain →
       env.jsonParse plain = some payload →
       payload.find "expiry" = some (Json.strV s) →
       parseISODateTime s ≤ 0 →
       verify env prev (some mk) (some lic) (some acct) = LicenseStatus.Valid)
    ∧ (∀ (st : SankeyState) (k s : String) (dflt : Int),
       st.isVerified_ = true → st.payload_.find k = some (Json.strV s) →
       parseISODateTime s ≤ 0 →
       getValueAsDateTime st (some k) dflt = dflt) := by
  constructor
  · intro env prev mk lic acct key bin mac plain payload s
      hk hklen hl hlen hm heq ha hp hs ht
    have hnl : ¬ bin.length < 48 := by omega
    have h0 : ¬ 0 < parseISODateTime s := by omega
    unfold verify verifyT
    simp only [hk, hklen, hl, hnl]
    simp only [hm]
    simp only [heq]
    simp [ha, hp, hs, h0]
  · intro st k s dflt hver hf ht
    have h0 : ¬ 0 < parseISODateTime s := by omega
    unfold getValueAsDateTime
    dsimp only
    rw [hver, if_pos rfl, hf]
    simp [h0]

/-- Closed instance of `C10_nonpositive_epoch`: an `expiry` of
1970-01-01T00:00:00Z parses to epoch `0`, `verify` returns `Valid` even
though `now` (1700000000) is far later, and `getValueAsDateTime` on the
same string returns the default `42`. -/
theorem C10_nonpositive_epoch_witness :
    verify envEpoch initState (some [65]) (some [66]) (some [49]) = LicenseStatus.Valid
    ∧ getValueAsDateTime
        { isVerified_ := true, payload_ := Json.objV [("expiry", Json.strV "1970-01-01T00:00:00Z")] }
        (some "expiry") 42 = 42 :=
  ⟨C10_nonpositive_epoch.1 envEpoch initState [65] [66] [49]
      (List.replicate 32 0) (List.replicate 48 0) (List.replicate 32 0) [123, 125]
      (Json.objV [("expiry", Json.strV "1970-01-01T00:00:00Z")]) "1970-01-01T00:00:00Z"
      (by decide) (by decide) (by decide) (by decide) (by decide) (by decide)
      (by decide) rfl rfl (by decide),
   C10_nonpositive_epoch.2
      { isVerified_ := true, payload_ := Json.objV [("expiry", Json.strV "1970-01-01T00:00:00Z")] }
      "expiry" "1970-01-01T00:00:00Z" 42 rfl rfl (by decide)⟩

theorem digitChar_isDigit {k : Nat} (hk : k < 10) : (digitChar k).isDigit = true := by
  interval_cases k <;> decide

theorem digitChar_toNat {k : Nat} (hk : k < 10) : (digitChar k).toNat = 48 + k := by
  interval_cases k <;> decide

theorem digitChar_not_ws {k : Nat} (hk : k < 10) : (digitChar k).isWhitespace = false := by
  interval_cases k <;> decide

theorem getDigitsAux_pad4 (y : Nat) (hy : y ≤ 9999) (l : List Char) :
    getDigitsAux 4 0 0 (pad4 y ++ l) = (y, 4, l) := by
  have h1 : y / 1000 < 10 := by omega
  have h2 : y / 100 % 10 < 10 := Nat.mod_lt _ (by norm_num)
  have h3 : y / 10 % 10 < 10 := Nat.mod_lt _ (by norm_num)
  have h4 : y % 10 < 10 := Nat.mod_lt _ (by norm_num)
  simp only [pad4, List.cons_append, List.nil_append, getDigitsAux,
    digitChar_isDigit h1, digitChar_isDigit h2, digitChar_isDigit h3, digitChar_isDigit h4,
    digitChar_toNat h1, digitChar_toNat h2, digitChar_toNat h3, digitChar_toNat h4,
    if_true, Prod.mk.injEq]
  refine ⟨by omega, by simp⟩

theorem getDigitsAux_pad2 (n : Nat) (hn : n ≤ 99) (l : List Char) :
    getDigitsAux 2 0 0 (pad2 n ++ l) = (n, 2, l) := by
  have h1 : n / 10 < 10 := by omega
  have h2 : n % 10 < 10 := Nat.mod_lt _ (by norm_num)
  simp only [pad2, List.cons_append, List.nil_append, getDigitsAux,
    digitChar_isDigit h1, digitChar_isDigit h2,
    digitChar_toNat h1, digitChar_toNat h2, if_true, Prod.mk.injEq]
  refine ⟨by omega, by simp⟩

theorem readField_pad4 (y : Nat) (hy : y ≤ 9999) (l : List Char) :
    readField 4 0 9999 (pad4 y ++ l) = some (y, l) := by
  have hnlt : ¬ 9999 < y := by omega
  simp [readField, getDigitsAux_pad4 y hy l, hnlt]

theorem readField_pad2 (n lo hi : Nat) (hn : n ≤ 99) (hlo : lo ≤ n) (hhi : n ≤ hi)
    (l : List Char) :
    readField 2 lo hi (pad2 n ++ l) = some (n, l) := by
  have h1 : ¬ n < lo := by omega
  have h2 : ¬ hi < n := by omega
  simp [readField, getDigitsAux_pad2 n hn l, h1, h2]

theorem expectChar_same (c : Char) (t : List Char) : expectChar c (c :: t) = some t := by
  simp [expectChar]

theorem dropWhile_pad4 (y : Nat) (hy : y ≤ 9999) (l : List Char) :
    (pad4 y ++ l).dropWhile (fun c => c.isWhitespace) = pad4 y ++ l := by
  have hhead : y / 1000 < 10 := by omega
  rw [show pad4 y ++ l = digitChar (y / 1000) :: ([digitChar (y / 100 % 10),
      digitChar (y / 10 % 10), digitChar (y % 10)] ++ l) from rfl]
  rw [List.dropWhile_cons_of_neg (by simp [digitChar_not_ws hhead])]

theorem getTimeParse_isoRender (y mo d h mi sec : Nat) (rest : String)
    (hy2 : y ≤ 9999) (hmo1 : 1 ≤ mo) (hmo2 : mo ≤ 12)
    (hd1 : 1 ≤ d) (hd2 : d ≤ 31) (hh : h ≤ 23) (hmi : mi ≤ 59) (hs : sec ≤ 59) :
    getTimeParse (isoRender y mo d h mi sec ++ rest) =
      some ⟨y, mo, d, h, mi, sec⟩ := by
  have htl : (isoRender y mo d h mi sec ++ rest).toList
      = pad4 y ++ '-' :: (pad2 mo ++ '-' :: (pad2 d ++ 'T' ::
          (pad2 h ++ ':' :: (pad2 mi ++ ':' :: (pad2 sec ++ rest.toList))))) := by
    show (isoRender y mo d h mi sec).data ++ rest.data = _
    simp [isoRender, List.append_assoc]
  simp only [getTimeParse, htl, dropWhile_pad4 y hy2,
    readField_pad4 y hy2,
    readField_pad2 mo 1 12 (by omega) hmo1 hmo2,
    readField_pad2 d 1 31 (by omega) hd1 hd2,
    readField_pad2 h 0 23 (by omega) (by omega) hh,
    readField_pad2 mi 0 59 (by omega) (by omega) hmi,
    readField_pad2 sec 0 59 (by omega) (by omega) hs,
    expectChar_same, Option.bind_eq_bind, Option.some_bind, Option.pure_def]

/-- `wrap32` is the identity on values representable in a 32-bit `long`. -/
theorem wrap32_small {n : Int} (h0 : 0 ≤ n) (h1 : n ≤ 2 ^ 31 - 1) : wrap32 n = n := by
  unfold wrap32
  omega

/-- Counterexample to C8 as stated: the string `2025-12-31T23:59:59` has no
trailing `Z`, so it does not match the pattern the claim says is required,
yet `parseISODateTime` accepts it and returns its epoch value instead of
the failure signal `0`. -/
theorem C8_counterexample :
    parseISODateTime "2025-12-31T23:59:59" = 1767225599
    ∧ (1767225599 : Int) ≠ 0 := by
  constructor
  · decide
  · decide

/-- C8 (amended).  The parser accepts any string that merely begins (after
optional leading whitespace) with a `YYYY-MM-DDTHH:MM:SS` prefix with
in-range fields: everything after the seconds — a fractional-seconds
suffix, a trailing `Z`, or arbitrary other text, including nothing at
all — is ignored and not validated.  The prefix is interpreted as UTC
(never local time): the result is the epoch-seconds value of the civil
date/time, here stated for results representable in the 32-bit `long` the
function returns.  On a failed parse the function returns the signal `0`
rather than raising (it is total by construction). -/
theorem C8_amended (y mo d h mi sec : Nat) (rest : String)
    (hy1 : 1970 ≤ y) (hy2 : y ≤ 9999) (hmo1 : 1 ≤ mo) (hmo2 : mo ≤ 12)
    (hd1 : 1 ≤ d) (hd2 : d ≤ 31) (hh : h ≤ 23) (hmi : mi ≤ 59) (hs : sec ≤ 59)
    (hrange : daysSinceEpoch y mo d * 86400 + h * 3600 + mi * 60 + sec ≤ 2 ^ 31 - 1) :
    parseISODateTime (isoRender y mo d h mi sec ++ rest)
      = ((daysSinceEpoch y mo d * 86400 + h * 3600 + mi * 60 + sec : Nat) : Int) := by
  have hmax : (2 ^ 31 - 1 : Nat) ≤ maxMkgmtime := by decide
  have hp := getTimeParse_isoRender y mo d h mi sec rest hy2 hmo1 hmo2 hd1 hd2 hh hmi hs
  simp only [parseISODateTime, hp, mkgmtimeM]
  rw [if_neg (by omega : ¬ y < 1970)]
  rw [if_neg (show ¬ maxMkgmtime <
      daysSinceEpoch y mo d * 86400 + h * 3600 + mi * 60 + sec by omega)]
  exact wrap32_small (by omega) (by omega)

/-- Closed instance of `C8_amended`: the canonical rendering of
2025-12-31T23:59:59 followed by the suffix `.000Z` — and equally followed
by no suffix at all — parses to its UTC epoch value. -/
theorem C8_amended_witness :
    parseISODateTime (isoRender 2025 12 31 23 59 59 ++ ".000Z")
      = ((daysSinceEpoch 2025 12 31 * 86400 + 23 * 3600 + 59 * 60 + 59 : Nat) : Int)
    ∧ parseISODateTime (isoRender 2025 12 31 23 59 59 ++ "")
      = ((daysSinceEpoch 2025 12 31 * 86400 + 23 * 3600 + 59 * 60 + 59 : Nat) : Int) :=
  ⟨C8_amended 2025 12 31 23 59 59 ".000Z"
      (by decide) (by decide) (by decide) (by decide) (by decide) (by decide)
      (by decide) (by decide) (by decide) (by decide),
   C8_amended 2025 12 31 23 59 59 ""
      (by decide) (by decide) (by decide) (by decide) (by decide) (by decide)
      (by decide) (by decide) (by decide) (by decide)⟩

end Sankey
